import Mathlib

/-!
Shallow embedding of the section segmentation and ranking pipeline
(`chunk_sections.py`, `rank_sections.py`) of the person-driven document
intelligence repository.  Python strings are modelled as Lean `String`
values operated on through their `List Char` data (Python `len` counts
code points, as does `List.length` on `String.data`); Python `hash` of a
content string is modelled by the content string itself, which matches
the dedup intent (hash equality stands for exact text equality).
Scores (floats produced by the external vector index) are modelled as
rationals; the claims only compare scores, never do float arithmetic.
-/

set_option maxRecDepth 40000

namespace Spec2

/-- Whitespace characters stripped by Python `str.strip()` / matched by `\s`. -/
def isPySpace (c : Char) : Bool :=
  c = ' ' || c = '\t' || c = '\n' || c = '\r' || c = '\x0b' || c = '\x0c'

def isUpperAZ (c : Char) : Bool := decide ('A' ≤ c) && decide (c ≤ 'Z')

def isLowerAZ (c : Char) : Bool := decide ('a' ≤ c) && decide (c ≤ 'z')

def isDigitC (c : Char) : Bool := decide ('0' ≤ c) && decide (c ≤ '9')

def isAsciiAlpha (c : Char) : Bool := isUpperAZ c || isLowerAZ c

/-- Leading/trailing whitespace removal on char lists (Python `str.strip()`). -/
def trimL (l : List Char) : List Char :=
  ((l.dropWhile isPySpace).reverse.dropWhile isPySpace).reverse

def ofChars (l : List Char) : String := String.mk l

/-- Python `s.strip()`. -/
def pyTrim (s : String) : String := ofChars (trimL s.data)

/-- Split a char list at every char satisfying `p`, keeping empty parts
(Python `str.split(sep)` semantics for a one-char separator). -/
def splitChar (p : Char → Bool) : List Char → List (List Char)
  | [] => [[]]
  | c :: rest =>
    if p c then [] :: splitChar p rest
    else
      match splitChar p rest with
      | h :: t => (c :: h) :: t
      | [] => [[c]]

/-- Python `s.split('\n\n')`: split on the exact two-char separator,
scanning left to right, non-overlapping. -/
def splitNN : List Char → List (List Char)
  | [] => [[]]
  | '\n' :: '\n' :: rest => [] :: splitNN rest
  | c :: rest =>
    match splitNN rest with
    | h :: t => (c :: h) :: t
    | [] => [[c]]

/-- Python `s.split()` with no argument: whitespace-run split, no empties. -/
def wordsOf (l : List Char) : List (List Char) :=
  (splitChar isPySpace l).filter (fun w => ! w.isEmpty)

/-- Python `s.endswith(('.', '!', '?'))`. -/
def endsPunctL (l : List Char) : Bool :=
  match l.getLast? with
  | some c => c = '.' || c = '!' || c = '?'
  | none => false

/-- Substring test (Python `needle in hay`). -/
def isSubstr (needle hay : List Char) : Bool :=
  (List.range (hay.length + 1)).any (fun i => needle.isPrefixOf (hay.drop i))

def toLowerL (l : List Char) : List Char := l.map Char.toLower

def toLowerS (s : String) : String := ofChars (toLowerL s.data)

/-- Python `s.replace('.pdf', '')`: remove every occurrence, left to right. -/
def replacePdf : List Char → List Char
  | '.' :: 'p' :: 'd' :: 'f' :: rest => replacePdf rest
  | c :: rest => c :: replacePdf rest
  | [] => []

/-- Chars before the last space, or the whole list if there is no space
(Python `s.rsplit(' ', 1)[0]`). -/
def beforeLastSpaceAux : List Char → Option (List Char)
  | [] => none
  | c :: rest =>
    match beforeLastSpaceAux rest with
    | some r => some (c :: r)
    | none => if c = ' ' then some [] else none

def beforeLastSpace (l : List Char) : List Char :=
  (beforeLastSpaceAux l).getD l

/-- Python `re.search(r"[a-zA-Z]{3,}", s)`: three consecutive ASCII letters. -/
def hasWord3 (l : List Char) : Bool :=
  (l.foldl
    (fun (acc : Nat × Bool) c =>
      if isAsciiAlpha c then (acc.1 + 1, acc.2 || decide (3 ≤ acc.1 + 1))
      else (0, acc.2))
    (0, false)).2

/-- Python `re.findall(r'[^.!?]*[.!?]', s)`: maximal runs of non-terminator
chars each closed by one terminator; a trailing unterminated run is dropped. -/
def sentencesAux : List Char → List Char → List String
  | [], _ => []
  | c :: rest, acc =>
    if c = '.' || c = '!' || c = '?' then
      ofChars (acc.reverse ++ [c]) :: sentencesAux rest []
    else sentencesAux rest (c :: acc)

def sentencesOf (s : String) : List String := sentencesAux s.data []

/-- Python `" ".join(blocks)`. -/
def joinSp (bs : List String) : String :=
  ofChars (List.intercalate [' '] (bs.map String.data))

/-- Python `list.insert(i, a)` (index clamped to the end, as in Python). -/
def insertAt : Nat → α → List α → List α
  | 0, a, l => a :: l
  | _ + 1, a, [] => [a]
  | n + 1, a, x :: xs => x :: insertAt n a xs

/- ---------------------------------------------------------------------
   Data model (`extract_text.py` page records, `chunk_sections.py` sections)
--------------------------------------------------------------------- -/

structure PageRecord where
  document : String
  page_number : Int
  content : String
deriving Repr, DecidableEq

structure Section where
  title : String
  content : String
  page_number : Int
  document : String
deriving Repr, DecidableEq

/- ---------------------------------------------------------------------
   chunk_sections.py : split_into_sections
--------------------------------------------------------------------- -/

/-- Char class of `STRICT_HEADING_REGEX` alternative 1 and of the tail of
alternative 3: `[A-Za-z0-9\s,&'\(\)\/_-]`. -/
def inHeadClass1 (c : Char) : Bool :=
  isUpperAZ c || isLowerAZ c || isDigitC c || isPySpace c ||
  c = ',' || c = '&' || c = '\'' || c = '(' || c = ')' || c = '/' || c = '_' || c = '-'

/-- Alternatives 1 and 2 of `STRICT_HEADING_REGEX`:
`[A-Z][A-Za-z0-9\s,&'\(\)\/_-]{4,40}` or `[A-Z][A-Z\s]{4,40}`, anchored. -/
def headAlt12 (l : List Char) : Bool :=
  match l with
  | [] => false
  | c :: rest =>
    isUpperAZ c && decide (4 ≤ rest.length) && decide (rest.length ≤ 40) &&
      (rest.all inHeadClass1 || rest.all (fun d => isUpperAZ d || isPySpace d))

/-- After the leading digit run of alternative 3: consume `(\.\d+)*`, then
require `\s+[A-Z][A-Za-z0-9\s,&'\(\)\/_-]{4,40}` to the end. -/
def headAlt3After (l : List Char) : Bool :=
  match l with
  | '.' :: rest =>
    if (rest.takeWhile isDigitC).isEmpty then false
    else headAlt3After (rest.dropWhile isDigitC)
  | l' =>
    let ws := l'.takeWhile isPySpace
    let r := l'.dropWhile isPySpace
    ¬ ws.isEmpty &&
      (match r with
       | c :: rest2 =>
         isUpperAZ c && decide (4 ≤ rest2.length) && decide (rest2.length ≤ 40) &&
           rest2.all inHeadClass1
       | [] => false)
termination_by l.length
decreasing_by
  simp only [List.length_cons]
  exact Nat.lt_succ_of_le (List.dropWhile_sublist _).length_le

/-- Alternative 3 of `STRICT_HEADING_REGEX`:
`\d+(?:\.\d+)*\s+[A-Z][A-Za-z0-9\s,&'\(\)\/_-]{4,40}`, anchored. -/
def headAlt3 (l : List Char) : Bool :=
  ¬ (l.takeWhile isDigitC).isEmpty && headAlt3After (l.dropWhile isDigitC)

/-- The full match `STRICT_HEADING_REGEX.fullmatch(line)`: one of the three alternatives
matches the whole line, and (lookbehind) the line does not end with `.?!`. -/
def headingFullmatch (line : String) : Bool :=
  (headAlt12 line.data || headAlt3 line.data) && ¬ endsPunctL line.data

/-- The first line, `block.split('\n')[0].strip()`. -/
def firstLineOf (block : String) : String :=
  pyTrim (ofChars ((splitChar (fun c => c = '\n') block.data).headD []))

/-- The `is_potential_title` flag after the >10-words demotion to ordinary content. -/
def is_potential_title (block : String) : Bool :=
  headingFullmatch (firstLineOf block) &&
    ¬ decide (10 < (wordsOf (firstLineOf block).data).length)

structure CurrentSection where
  title : String
  content_blocks : List String
  page_number : Int
  document : String
deriving Repr, DecidableEq

def finalizeSection (cur : CurrentSection) : Section :=
  { title := cur.title
    content := pyTrim (joinSp cur.content_blocks)
    page_number := cur.page_number
    document := cur.document }

/-- Body of the per-block loop of `split_into_sections`. -/
def processBlock (pn : Int) (doc : String)
    (st : List Section × CurrentSection) (block : String) :
    List Section × CurrentSection :=
  let sections := st.1
  let cur := st.2
  if is_potential_title block then
    if 200 ≤ (pyTrim (joinSp cur.content_blocks)).data.length then
      (sections ++ [finalizeSection cur],
       { title := firstLineOf block
         content_blocks := [block]
         page_number := pn
         document := doc })
    else
      if cur.title = "" ∧ cur.content_blocks = [] then
        (sections, { cur with title := firstLineOf block, content_blocks := [block] })
      else
        (sections, { cur with content_blocks := cur.content_blocks ++ [block] })
  else
    (sections, { cur with content_blocks := cur.content_blocks ++ [block] })

/-- End-of-page disposition of the accumulated section. -/
def endOfPage (sections : List Section) (cur : CurrentSection) : List Section :=
  let fc := pyTrim (joinSp cur.content_blocks)
  if fc.data.length = 0 then sections
  else if fc.data.length < 80 ∧ sections ≠ [] then
    match sections.getLast? with
    | some last =>
      if last.content.data.length < 1000 then
        sections.dropLast ++ [{ last with content := last.content ++ "\n\n" ++ fc }]
      else
        sections ++
          [{ title := cur.title
             content := fc
             page_number := cur.page_number
             document := cur.document }]
    | none => sections
  else
    if 80 ≤ fc.data.length ∨ sections = [] then
      sections ++
        [{ title := cur.title
           content := fc
           page_number := cur.page_number
           document := cur.document }]
    else sections

/-- Per-page body of `split_into_sections`. -/
def processPage (sections : List Section) (page : PageRecord) : List Section :=
  let blocks :=
    (((splitNN page.content.data).map (fun b => ofChars (trimL b))).filter
      (fun b => ¬ b.data.isEmpty))
  let cur0 : CurrentSection :=
    { title := ""
      content_blocks := []
      page_number := page.page_number
      document := page.document }
  let st := blocks.foldl (processBlock page.page_number page.document) (sections, cur0)
  endOfPage st.1 st.2

def split_into_sections (pages : List PageRecord) : List Section :=
  pages.foldl processPage []

/- ---------------------------------------------------------------------
   rank_sections.py : meaningful_title
--------------------------------------------------------------------- -/

/-- Char class of the title-field regex after its first char, Title-Case
branch: `[a-z0-9\s,&'\(\)\/_-]` (note: no further uppercase letters). -/
def inTitleClass1 (c : Char) : Bool :=
  isLowerAZ c || isDigitC c || isPySpace c ||
  c = ',' || c = '&' || c = '\'' || c = '(' || c = ')' || c = '/' || c = '_' || c = '-'

/-- The check `re.match(r"^(?:[A-Z][a-z0-9\s,&'\(\)\/_-]*|[A-Z][A-Z\s]*)$", t)`. -/
def titleRegexOk (t : String) : Bool :=
  match t.data with
  | [] => false
  | c :: rest =>
    isUpperAZ c &&
      (rest.all inTitleClass1 || rest.all (fun d => isUpperAZ d || isPySpace d))

/-- Loop of fallback 1 of `meaningful_title`: greedily append sentences while
the candidate stays under 25 words and under 100 characters. -/
def buildCandidate : List String → String → String
  | [], cand => cand
  | s :: rest, cand =>
    if (wordsOf (cand ++ s).data).length < 25 ∧ (cand ++ s).data.length < 100 then
      buildCandidate rest (cand ++ pyTrim s ++ " ")
    else cand

/-- The "truly generic title" of the final fallback of `meaningful_title`:
`f"Information from Page {page_number} of {document without .pdf}"`. -/
def syntheticTitle (s : Section) : String :=
  "Information from Page " ++ toString s.page_number ++ " of " ++
    ofChars (replacePdf s.document.data)

/-- The first-paragraph snippet of `meaningful_title`, truncated at the last
full word with an ellipsis when longer than 100 characters. -/
def fallbackSnippetOf (contentText : String) : String :=
  let snippet0 := pyTrim (ofChars ((splitNN contentText.data).headD []))
  if 100 < snippet0.data.length then
    ofChars (beforeLastSpace (snippet0.data.take 100)) ++ "..."
  else snippet0

/-- The content-based / snippet / synthetic fallback path of
`meaningful_title`, taken when the title-field check fails. -/
def meaningfulTitleFallback (s : Section) : String :=
  let contentText := pyTrim s.content
  let cand := pyTrim (buildCandidate (sentencesOf contentText) "")
  if 5 < (wordsOf cand.data).length ∧ (wordsOf cand.data).length < 25 ∧
      hasWord3 cand.data = true ∧
      (match cand.data with | c :: _ => c.isUpper | [] => false) = true ∧
      endsPunctL cand.data = true then
    cand
  else
    let snippet := fallbackSnippetOf contentText
    if hasWord3 snippet.data = false ∨ (wordsOf snippet.data).length < 5 ∨
        endsPunctL snippet.data = true then
      syntheticTitle s
    else snippet

def meaningful_title (s : Section) : String :=
  let extractedTitle := pyTrim s.title
  if 5 < (wordsOf extractedTitle.data).length ∧
      (wordsOf extractedTitle.data).length < 25 ∧
      titleRegexOk extractedTitle = true ∧
      endsPunctL extractedTitle.data = false then
    extractedTitle
  else meaningfulTitleFallback s

/- ---------------------------------------------------------------------
   rank_sections.py : theme classification and priority order
--------------------------------------------------------------------- -/

def GENERAL_CATEGORIES_KEYWORDS : List (String × List String) :=
  [("introduction_overview",
    ["introduction", "overview", "abstract", "summary", "purpose", "scope",
     "background", "context"]),
   ("key_concepts_definitions",
    ["define", "concept", "definition", "key terms", "principles", "fundamentals"]),
   ("methods_procedures_steps",
    ["how to", "method", "steps", "procedure", "process", "approach",
     "guidelines", "instructions", "guide", "implementation"]),
   ("results_findings_data",
    ["results", "findings", "data", "analysis", "outcome", "statistics",
     "performance"]),
   ("recommendations_solutions",
    ["recommendation", "solution", "advice", "suggestion", "best practices",
     "tips", "strategy", "plan", "roadmap"]),
   ("examples_applications",
    ["example", "case study", "application", "use case", "scenario",
     "demonstration"]),
   ("conclusion_summary",
    ["conclusion", "summary", "final thoughts", "in brief", "key takeaways",
     "outlook"]),
   ("contact_information",
    ["contact", "address", "phone", "email", "website", "support"]),
   ("appendix_references",
    ["appendix", "references", "bibliography", "glossary", "index"])]

/-- The `classify` helper of `rank_sections`: first general category with a
keyword substring match in the lowercased title+content, then persona-specific
travel themes, default `other_general`. -/
def classify (persona : String) (s : Section) : String :=
  let tc := (toLowerS (s.title ++ " " ++ s.content)).data
  match GENERAL_CATEGORIES_KEYWORDS.find?
      (fun p => p.2.any (fun k => isSubstr k.data tc)) with
  | some p => p.1
  | none =>
    if isSubstr "travel planner".data (toLowerS persona).data then
      if isSubstr "city".data tc || isSubstr "destination".data tc ||
          isSubstr "town".data tc || isSubstr "regions".data tc then
        "travel_cities"
      else if isSubstr "activity".data tc || isSubstr "entertainment".data tc ||
          isSubstr "nightlife".data tc || isSubstr "attraction".data tc ||
          isSubstr "excursion".data tc then
        "travel_activities"
      else if isSubstr "cuisine".data tc || isSubstr "food".data tc ||
          isSubstr "restaurant".data tc || isSubstr "dining".data tc then
        "travel_food"
      else if isSubstr "hotel".data tc || isSubstr "accommodation".data tc ||
          isSubstr "stay".data tc then
        "travel_accommodation"
      else if isSubstr "tip".data tc || isSubstr "packing".data tc ||
          isSubstr "safety".data tc || isSubstr "transport".data tc then
        "travel_tips_practical"
      else "other_general"
    else "other_general"

def DEFAULT_STRICT_PRIORITY_THEMES : List String :=
  ["methods_procedures_steps",
   "recommendations_solutions",
   "results_findings_data",
   "key_concepts_definitions",
   "examples_applications",
   "introduction_overview",
   "conclusion_summary",
   "travel_cities",
   "travel_activities",
   "travel_food",
   "travel_accommodation",
   "travel_tips_practical",
   "supplemental_info",
   "other_general"]

/-- The persona-dependent reordering of the priority theme list. -/
def currentPriorityThemes (persona : String) : List String :=
  if isSubstr "travel planner".data (toLowerS persona).data then
    let l1 :=
      (["travel_cities", "travel_activities", "travel_food",
        "travel_accommodation"].reverse).foldl
        (fun cur theme =>
          if cur.contains theme then theme :: cur.erase theme else cur)
        DEFAULT_STRICT_PRIORITY_THEMES
    if l1.contains "travel_tips_practical" then
      let l2 := l1.erase "travel_tips_practical"
      let idx : Int :=
        ["travel_accommodation", "travel_food", "travel_activities",
         "travel_cities"].foldl
          (fun acc core =>
            if l2.contains core then max acc (l2.indexOf core : Int) else acc)
          (-1)
      insertAt (idx + 1).toNat "travel_tips_practical" l2
    else l1
  else DEFAULT_STRICT_PRIORITY_THEMES

/- ---------------------------------------------------------------------
   rank_sections.py : the diversity selector (passes 1 and 2, final sort)
--------------------------------------------------------------------- -/

/-- The `(document, page_number, hash(content))` dedup key; the content hash
is modelled by the content string itself (exact-text equality). -/
def secId (s : Section) : String × Int × String :=
  (s.document, s.page_number, s.content)

/-- Inner scan of Pass 1: best not-yet-chosen section of the given theme,
preferring higher score, and on a score tie a document different from the
tentative best. -/
def bestForTheme (results : List (Section × ℚ)) (persona theme : String)
    (ids : List (String × Int × String)) : Option (Section × ℚ) :=
  results.foldl
    (fun best p =>
      if ¬ ids.contains (secId p.1) ∧ classify persona p.1 = theme then
        match best with
        | none => some p
        | some b =>
          if p.2 > b.2 ∨ (p.2 = b.2 ∧ b.1.document ≠ p.1.document) then some p
          else some b
      else best)
    none

/-- Pass 1 of `rank_sections`.  Faithful to the source, including its slip:
after the inner scan the Python loop variable `sec_identifier` holds the
identifier of the **last scanned pool element**, and that — not the chosen
section's identifier — is what gets added to the chosen-identifier set. -/
def pass1 (results : List (Section × ℚ)) (persona : String) (maxCount : Nat) :
    List (Section × ℚ) × List (String × Int × String) :=
  (currentPriorityThemes persona).foldl
    (fun acc theme =>
      if maxCount ≤ acc.1.length then acc
      else
        match bestForTheme results persona theme acc.2 with
        | none => acc
        | some best =>
          match results.getLast? with
          | some lastP => (acc.1 ++ [best], acc.2 ++ [secId lastP.1])
          | none => acc)
    ([], [])

/-- Descending-by-score order used by the final sort and by Pass 2
(`sorted(results, key=lambda x: -x[1])`, a stable sort). -/
def scoreGe (a b : Section × ℚ) : Prop := b.2 ≤ a.2

instance : DecidableRel scoreGe := fun a b => inferInstanceAs (Decidable (b.2 ≤ a.2))

instance : IsTotal (Section × ℚ) scoreGe := ⟨fun a b => le_total b.2 a.2⟩

instance : IsTrans (Section × ℚ) scoreGe := ⟨fun _ _ _ h1 h2 => le_trans h2 h1⟩

def sortByScoreDesc (l : List (Section × ℚ)) : List (Section × ℚ) :=
  List.insertionSort scoreGe l

/-- Pass 2 of `rank_sections`: backfill from the score-sorted pool, skipping
identifiers already recorded as chosen. -/
def pass2 (results : List (Section × ℚ)) (maxCount : Nat)
    (st : List (Section × ℚ) × List (String × Int × String)) :
    List (Section × ℚ) × List (String × Int × String) :=
  if st.1.length < maxCount then
    (sortByScoreDesc results).foldl
      (fun acc p =>
        if maxCount ≤ acc.1.length then acc
        else if acc.2.contains (secId p.1) then acc
        else (acc.1 ++ [p], acc.2 ++ [secId p.1]))
      st
  else st

/-- The selector: Pass 1, Pass 2, then the final re-sort by descending score. -/
def selectChosen (results : List (Section × ℚ)) (persona : String)
    (maxCount : Nat) : List (Section × ℚ) :=
  sortByScoreDesc (pass2 results maxCount (pass1 results persona maxCount)).1

/- ---------------------------------------------------------------------
   rank_sections.py : presenter (refined text and output assembly)
--------------------------------------------------------------------- -/

/-- Sentence-packing inner loop of the refined-text heuristic. -/
def packSentences : List String → Nat → String → String
  | [], _, temp => temp
  | s :: rest, curLen, temp =>
    if curLen + temp.data.length + s.data.length ≤ 220 then
      packSentences rest curLen (temp ++ pyTrim s ++ " ")
    else temp

/-- Paragraph-packing loop of the refined-text heuristic (the `break` at the
end of the over-budget branch ends the whole loop). -/
def refineParas : List String → List String → Nat → List String
  | [], parts, _ => parts
  | p :: rest, parts, curLen =>
    let para := pyTrim p
    if para.data.length = 0 then refineParas rest parts curLen
    else if curLen + para.data.length ≤ 220 ∨ parts = [] then
      refineParas rest (parts ++ [para]) (curLen + para.data.length + 2)
    else
      let temp := packSentences (sentencesOf para) curLen ""
      if ¬ temp.data.length = 0 then parts ++ [pyTrim temp]
      else if curLen < 220 then
        let snippet := pyTrim (ofChars (para.data.take (220 - curLen)))
        if 3 < (wordsOf snippet.data).length then parts ++ [snippet ++ "..."]
        else parts
      else parts

/-- The concise "refined text" built for each chosen section. -/
def refineText (content : String) : String :=
  let rtc := pyTrim content
  let parts := refineParas ((splitNN rtc.data).map ofChars) [] 0
  let ft0 := pyTrim (ofChars (List.intercalate ['\n', '\n'] (parts.map String.data)))
  let ft := ofChars (ft0.data.map (fun c => if c = '\n' then ' ' else c))
  if ft.data.length = 0 ∧ ¬ rtc.data.length = 0 then
    let f1 := pyTrim (ofChars (rtc.data.take 220))
    let f2 :=
      if 220 < rtc.data.length ∧ endsPunctL f1.data = false then f1 ++ "..."
      else f1
    ofChars (f2.data.map (fun c => if c = '\n' then ' ' else c))
  else if ft.data.length = 0 then "N/A"
  else ft

structure ExtractedSectionEntry where
  document : String
  section_title : String
  importance_rank : Nat
  page_number : Int
deriving Repr, DecidableEq

structure SubsectionAnalysisEntry where
  document : String
  refined_text : String
  page_number : Int
deriving Repr, DecidableEq

/-- The output-assembly loop (`for rank, (sec, score) in enumerate(chosen, 1)`). -/
def presentLoop : Nat → List (Section × ℚ) →
    List ExtractedSectionEntry × List SubsectionAnalysisEntry
  | _, [] => ([], [])
  | rank, (sec, _) :: rest =>
    let tl := presentLoop (rank + 1) rest
    ({ document := sec.document
       section_title := meaningful_title sec
       importance_rank := rank
       page_number := sec.page_number } :: tl.1,
     { document := sec.document
       refined_text := refineText sec.content
       page_number := sec.page_number } :: tl.2)

/-- The pre-index filter of `rank_sections`: keep only sections whose stripped
content is strictly longer than 150 characters. -/
def filteredSections (sections : List Section) : List Section :=
  sections.filter (fun s => 150 < (pyTrim s.content).data.length)

/-- The query template synthesized for the relevance index. -/
def queryOf (persona job : String) : String :=
  "As a " ++ pyTrim persona ++ ", I need to " ++ pyTrim job ++
    ". Provide concrete, actionable information and key recommendations. " ++
    "Focus on essential details, steps, or insights relevant to completing this task."

/-- The function `rank_sections`, parameterized by the external vector index's `search`
capability (it is queried with the synthesized query and `top_k = 100`). -/
def rank_sections (sections : List Section) (persona job : String)
    (search : String → Nat → List (Section × ℚ)) (maxSectionsToExtract : Nat) :
    List ExtractedSectionEntry × List SubsectionAnalysisEntry :=
  if filteredSections sections = [] then ([], [])
  else
    let results := search (queryOf persona job) 100
    presentLoop 1 (selectChosen results persona maxSectionsToExtract)

/- ---------------------------------------------------------------------
   Concrete instances used by the claim theorems
--------------------------------------------------------------------- -/

/-- 1000-character content (end-of-page merge threshold boundary). -/
def a1000 : String := ofChars (List.replicate 1000 'a')

/-- 200-character accumulated block (new-section threshold, met). -/
def a200 : String := ofChars (List.replicate 200 'a')

/-- 199-character accumulated block (new-section threshold, just missed). -/
def a199 : String := ofChars (List.replicate 199 'a')

/-- 90-character page content (kept as a standalone section). -/
def x90 : String := ofChars (List.replicate 90 'x')

/-- The rational 0.9 in normalized form (num 9, den 10). -/
def r09 : ℚ := ⟨9, 10, by decide, by decide⟩

/-- The rational 0.8 in normalized form (num 4, den 5). -/
def r08 : ℚ := ⟨4, 5, by decide, by decide⟩

/-- The rational 0.7 in normalized form (num 7, den 10). -/
def r07 : ℚ := ⟨7, 10, by decide, by decide⟩

/-- The rational 0.1 in normalized form (num 1, den 10). -/
def r01 : ℚ := ⟨1, 10, by decide, by decide⟩

def c1A : Section :=
  { title := "", content := "method one", page_number := 1, document := "a.pdf" }

def c1B : Section :=
  { title := "", content := "zzz qqq", page_number := 1, document := "b.pdf" }

def c1pool : List (Section × ℚ) := [(c1A, r09), (c1B, r08)]

def c2B : Section :=
  { title := "", content := "solution beta", page_number := 2, document := "b.pdf" }

def c2C : Section :=
  { title := "", content := "zzz qqq", page_number := 3, document := "c.pdf" }

def c2pool : List (Section × ℚ) := [(c1A, r09), (c2B, r08), (c2C, r01)]

def c3p1 : PageRecord := { document := "d.pdf", page_number := 1, content := x90 }

def c3p2 : PageRecord := { document := "d.pdf", page_number := 2, content := "tail bit" }

def c3merged : Section :=
  { title := ""
    content := x90 ++ "\n\n" ++ "tail bit"
    page_number := 1
    document := "d.pdf" }

def c4p1 : PageRecord := { document := "d.pdf", page_number := 1, content := a1000 }

def c4p2 : PageRecord := { document := "d.pdf", page_number := 2, content := "short tail" }

def c4w : Section :=
  { title := "", content := "hello world", page_number := 1, document := "d.pdf" }

def c4wcur : CurrentSection :=
  { title := "", content_blocks := ["tail"], page_number := 2, document := "d.pdf" }

def s150 : Section :=
  { title := ""
    content := ofChars (List.replicate 150 'a')
    page_number := 1
    document := "x.pdf" }

def cur200 : CurrentSection :=
  { title := "", content_blocks := [a200], page_number := 1, document := "d.pdf" }

def cur199 : CurrentSection :=
  { title := "", content_blocks := [a199], page_number := 1, document := "d.pdf" }

def c8C : Section :=
  { title := "", content := "method two", page_number := 3, document := "c.pdf" }

def c8pool : List (Section × ℚ) := [(c1A, r09), (c1B, r08), (c8C, r07)]

def introSec : Section :=
  { title := "INTRODUCTION", content := "", page_number := 3, document := "intro.pdf" }

def goodSec : Section :=
  { title := "Detailed planning steps for annual review"
    content := "body"
    page_number := 1
    document := "g.pdf" }

/-- The title-field acceptance test as the claim words it: word count strictly
between 5 and 25, the Title-Case / ALL-CAPS capitalization pattern, and no
terminal sentence punctuation (stated over the stripped title, which is what
the function inspects). -/
def specTitleFieldOk (s : Section) : Bool :=
  let t := pyTrim s.title
  decide (5 < (wordsOf t.data).length ∧ (wordsOf t.data).length < 25) &&
    titleRegexOk t && ! endsPunctL t.data

/- ---------------------------------------------------------------------
   Helper lemmas
--------------------------------------------------------------------- -/

/-- A page whose content is a single already-stripped non-empty block that is
not a heading candidate reduces to the end-of-page disposition of an untitled
single-block accumulated section. -/
theorem processPage_single_block (secs : List Section) (page : PageRecord)
    (b : List Char) (h1 : splitNN page.content.data = [b]) (h2 : trimL b = b)
    (h3 : b ≠ []) (h4 : is_potential_title (ofChars b) = false) :
    processPage secs page =
      endOfPage secs
        { title := ""
          content_blocks := [ofChars b]
          page_number := page.page_number
          document := page.document } := by
  have hne : b.isEmpty = false := by
    cases b with
    | nil => exact absurd rfl h3
    | cons c cs => rfl
  have h4' : is_potential_title { data := b } = false := h4
  simp only [processPage, h1, List.map_cons, List.map_nil, h2]
  simp [ofChars, h3, List.filter, processBlock, h4']

/-- Splitting leaves a list without separator characters in one piece. -/
theorem splitChar_all_neg (p : Char → Bool) :
    ∀ l : List Char, l.all (fun c => ! p c) = true → splitChar p l = [l]
  | [], _ => rfl
  | c :: rest, h => by
    have hc : p c = false := by
      have := (List.all_eq_true.mp h) c (List.mem_cons_self c rest)
      simpa using this
    have ih := splitChar_all_neg p rest
      (List.all_eq_true.mpr fun x hx =>
        (List.all_eq_true.mp h) x (List.mem_cons_of_mem c hx))
    simp [splitChar, hc, ih]

/-- The first line of a block containing no newline is the stripped block. -/
theorem firstLineOf_of_no_newline (block : String)
    (h : block.data.all (fun c => ! decide (c = '\n')) = true) :
    firstLineOf block = pyTrim block := by
  unfold firstLineOf
  rw [splitChar_all_neg _ block.data h]
  rfl

/-- Dropping leading whitespace keeps a replicate of `'a'`. -/
theorem dropWhile_space_replicate_a (n : Nat) :
    List.dropWhile isPySpace (List.replicate n 'a') = List.replicate n 'a' := by
  cases n with
  | zero => rfl
  | succ m =>
    rw [List.replicate_succ, List.dropWhile_cons, if_neg (by decide)]

theorem trimL_replicate_a (n : Nat) :
    trimL (List.replicate n 'a') = List.replicate n 'a' := by
  unfold trimL
  rw [dropWhile_space_replicate_a, List.reverse_replicate,
    dropWhile_space_replicate_a, List.reverse_replicate]

/-- Blank-line splitting leaves a replicate of `'a'` (no newlines) in one piece. -/
theorem splitNN_replicate_a :
    ∀ n, splitNN (List.replicate n 'a') = [List.replicate n 'a']
  | 0 => rfl
  | 1 => rfl
  | (n + 2) => by
    show splitNN ('a' :: 'a' :: List.replicate n 'a') = _
    have h1 : splitNN ('a' :: 'a' :: List.replicate n 'a')
        = match splitNN ('a' :: List.replicate n 'a') with
          | h :: t => ('a' :: h) :: t
          | [] => [['a']] := rfl
    rw [h1, show ('a' :: List.replicate n 'a') = List.replicate (n + 1) 'a' from rfl,
      splitNN_replicate_a (n + 1)]
    exact rfl

/-- A block whose first line starts with a character that is neither an
ASCII uppercase letter nor a digit is never a heading candidate. -/
theorem is_potential_title_false_head (block : String) (c : Char) (t : List Char)
    (hc : (firstLineOf block).data = c :: t) (hu : isUpperAZ c = false)
    (hd : isDigitC c = false) : is_potential_title block = false := by
  unfold is_potential_title headingFullmatch headAlt12 headAlt3
  rw [hc]
  simp [hu, hd, List.takeWhile_cons]

/-- End-of-page disposition when the accumulated content has length ≥ 80:
the section is appended standalone. -/
theorem endOfPage_keep (secs : List Section) (cur : CurrentSection)
    (h : 80 ≤ (pyTrim (joinSp cur.content_blocks)).data.length) :
    endOfPage secs cur =
      secs ++
        [{ title := cur.title
           content := pyTrim (joinSp cur.content_blocks)
           page_number := cur.page_number
           document := cur.document }] := by
  have h0 : ¬ ((pyTrim (joinSp cur.content_blocks)).data.length = 0) := by omega
  have h1 : ¬ ((pyTrim (joinSp cur.content_blocks)).data.length < 80 ∧ secs ≠ []) := by
    rintro ⟨hl, -⟩; omega
  simp only [endOfPage]
  rw [if_neg h0, if_neg h1, if_pos (Or.inl h)]

/-- End-of-page disposition for short accumulated content when the previously
finalized section's content is still under 1000 characters: merge into it. -/
theorem endOfPage_merge (secs : List Section) (cur : CurrentSection) (last : Section)
    (h0 : ¬ (pyTrim (joinSp cur.content_blocks)).data.length = 0)
    (h1 : (pyTrim (joinSp cur.content_blocks)).data.length < 80)
    (hlast : secs.getLast? = some last)
    (hsmall : last.content.data.length < 1000) :
    endOfPage secs cur =
      secs.dropLast ++
        [{ last with content := last.content ++ "\n\n" ++ pyTrim (joinSp cur.content_blocks) }] := by
  have hne : secs ≠ [] := by
    intro h
    subst h
    simp at hlast
  simp only [endOfPage]
  rw [if_neg h0, if_pos ⟨h1, hne⟩]
  simp only [hlast]
  rw [if_pos hsmall]

/-- End-of-page disposition for short accumulated content when the previously
finalized section's content is already at least 1000 characters: finalize the
short content as a standalone section instead. -/
theorem endOfPage_standalone (secs : List Section) (cur : CurrentSection) (last : Section)
    (h0 : ¬ (pyTrim (joinSp cur.content_blocks)).data.length = 0)
    (h1 : (pyTrim (joinSp cur.content_blocks)).data.length < 80)
    (hlast : secs.getLast? = some last)
    (hbig : 1000 ≤ last.content.data.length) :
    endOfPage secs cur =
      secs ++
        [{ title := cur.title
           content := pyTrim (joinSp cur.content_blocks)
           page_number := cur.page_number
           document := cur.document }] := by
  have hne : secs ≠ [] := by
    intro h
    subst h
    simp at hlast
  have hns : ¬ last.content.data.length < 1000 := by omega
  simp only [endOfPage]
  rw [if_neg h0, if_pos ⟨h1, hne⟩]
  simp only [hlast]
  rw [if_neg hns]

/-- End-of-page disposition with empty accumulated content: no change. -/
theorem endOfPage_empty (secs : List Section) (cur : CurrentSection)
    (h : (pyTrim (joinSp cur.content_blocks)).data.length = 0) :
    endOfPage secs cur = secs := by
  simp only [endOfPage]
  rw [if_pos h]

/-- End-of-page disposition outside the merge case (content non-empty and not
both short and preceded by a section): the section is appended standalone. -/
theorem endOfPage_append (secs : List Section) (cur : CurrentSection)
    (h0 : ¬ (pyTrim (joinSp cur.content_blocks)).data.length = 0)
    (h2 : ¬ ((pyTrim (joinSp cur.content_blocks)).data.length < 80 ∧ secs ≠ [])) :
    endOfPage secs cur =
      secs ++
        [{ title := cur.title
           content := pyTrim (joinSp cur.content_blocks)
           page_number := cur.page_number
           document := cur.document }] := by
  simp only [endOfPage]
  rw [if_neg h0, if_neg h2, if_pos ?_]
  by_cases hl : (pyTrim (joinSp cur.content_blocks)).data.length < 80
  · right
    by_contra hne
    exact h2 ⟨hl, hne⟩
  · left
    omega

/-- One block step never removes finalized sections; it can only append the
finalization of the currently accumulating section. -/
theorem processBlock_fst (pn : Int) (doc : String)
    (st : List Section × CurrentSection) (block : String) :
    ∀ s ∈ (processBlock pn doc st block).1, s ∈ st.1 ∨ s = finalizeSection st.2 := by
  intro s hs
  simp only [processBlock] at hs
  split_ifs at hs with h1 h2 h3
  · rcases List.mem_append.mp hs with h | h
    · exact Or.inl h
    · right
      simpa using h
  · exact Or.inl hs
  · exact Or.inl hs
  · exact Or.inl hs

/-- One block step keeps the accumulating section on the current page. -/
theorem processBlock_snd (pn : Int) (doc : String)
    (st : List Section × CurrentSection) (block : String)
    (h1 : st.2.page_number = pn) (h2 : st.2.document = doc) :
    (processBlock pn doc st block).2.page_number = pn ∧
    (processBlock pn doc st block).2.document = doc := by
  simp only [processBlock]
  split_ifs <;> simp [h1, h2]

/-- Invariant of the per-page block fold: the accumulating section stays on
the page, and every finalized section either predates the page or carries the
page's number and document. -/
theorem processBlocks_inv (pn : Int) (doc : String) :
    ∀ (blocks : List String) (st : List Section × CurrentSection),
      st.2.page_number = pn → st.2.document = doc →
      ((blocks.foldl (processBlock pn doc) st).2.page_number = pn ∧
       (blocks.foldl (processBlock pn doc) st).2.document = doc) ∧
      ∀ s ∈ (blocks.foldl (processBlock pn doc) st).1,
        s ∈ st.1 ∨ (s.page_number = pn ∧ s.document = doc)
  | [], st, h1, h2 => ⟨⟨h1, h2⟩, fun _ hs => Or.inl hs⟩
  | b :: bs, st, h1, h2 => by
    have hsnd := processBlock_snd pn doc st b h1 h2
    have ih := processBlocks_inv pn doc bs (processBlock pn doc st b) hsnd.1 hsnd.2
    refine ⟨ih.1, fun s hs => ?_⟩
    rcases ih.2 s hs with h | h
    · rcases processBlock_fst pn doc st b s h with h' | h'
      · exact Or.inl h'
      · right
        rw [h']
        simp [finalizeSection, h1, h2]
    · exact Or.inr h

/-- Every section surviving the end-of-page disposition either shares its
page and document with a previously finalized section or carries those of the
section accumulated on the current page. -/
theorem endOfPage_mem (secs : List Section) (cur : CurrentSection) :
    ∀ s ∈ endOfPage secs cur,
      (∃ t ∈ secs, s.page_number = t.page_number ∧ s.document = t.document) ∨
      (s.page_number = cur.page_number ∧ s.document = cur.document) := by
  intro s hs
  by_cases h1 : (pyTrim (joinSp cur.content_blocks)).data.length = 0
  · rw [endOfPage_empty secs cur h1] at hs
    exact Or.inl ⟨s, hs, rfl, rfl⟩
  by_cases h2 : (pyTrim (joinSp cur.content_blocks)).data.length < 80 ∧ secs ≠ []
  · have hgl : secs.getLast? = some (secs.getLast h2.2) :=
      List.getLast?_eq_getLast_of_ne_nil h2.2
    by_cases h4 : (secs.getLast h2.2).content.data.length < 1000
    · rw [endOfPage_merge secs cur _ h1 h2.1 hgl h4] at hs
      rcases List.mem_append.mp hs with h | h
      · exact Or.inl ⟨s, (List.dropLast_sublist secs).subset h, rfl, rfl⟩
      · simp only [List.mem_singleton] at h
        subst h
        exact Or.inl ⟨secs.getLast h2.2, List.getLast_mem h2.2, rfl, rfl⟩
    · rw [endOfPage_standalone secs cur _ h1 h2.1 hgl (by omega)] at hs
      rcases List.mem_append.mp hs with h | h
      · exact Or.inl ⟨s, h, rfl, rfl⟩
      · simp only [List.mem_singleton] at h
        subst h
        exact Or.inr ⟨rfl, rfl⟩
  · rw [endOfPage_append secs cur h1 h2] at hs
    rcases List.mem_append.mp hs with h | h
    · exact Or.inl ⟨s, h, rfl, rfl⟩
    · simp only [List.mem_singleton] at h
      subst h
      exact Or.inr ⟨rfl, rfl⟩

/-- Every section produced or kept by a page step either shares page and
document with a pre-existing section or carries the processed page's. -/
theorem processPage_mem (secs : List Section) (page : PageRecord) :
    ∀ s ∈ processPage secs page,
      (∃ t ∈ secs, s.page_number = t.page_number ∧ s.document = t.document) ∨
      (s.page_number = page.page_number ∧ s.document = page.document) := by
  intro s hs
  simp only [processPage] at hs
  have hinv := processBlocks_inv page.page_number page.document
    ((((splitNN page.content.data).map (fun b => ofChars (trimL b))).filter
      (fun b => ¬ b.data.isEmpty)))
    (secs,
      { title := ""
        content_blocks := []
        page_number := page.page_number
        document := page.document })
    rfl rfl
  rcases endOfPage_mem _ _ s hs with ⟨t, ht, e1, e2⟩ | ⟨e1, e2⟩
  · rcases hinv.2 t ht with h | h
    · exact Or.inl ⟨t, h, e1, e2⟩
    · exact Or.inr ⟨e1.trans h.1, e2.trans h.2⟩
  · exact Or.inr ⟨e1.trans hinv.1.1, e2.trans hinv.1.2⟩

/-- Page/document provenance across the whole fold over pages. -/
theorem split_foldl_mem :
    ∀ (pages : List PageRecord) (acc : List Section) (s : Section),
      s ∈ pages.foldl processPage acc →
      (∃ t ∈ acc, s.page_number = t.page_number ∧ s.document = t.document) ∨
      ∃ p ∈ pages, s.page_number = p.page_number ∧ s.document = p.document
  | [], _, s, hs => Or.inl ⟨s, hs, rfl, rfl⟩
  | pg :: pgs, acc, s, hs => by
    rcases split_foldl_mem pgs (processPage acc pg) s hs with
      ⟨t, ht, e1, e2⟩ | ⟨p, hp, e1, e2⟩
    · rcases processPage_mem acc pg t ht with ⟨u, hu, f1, f2⟩ | ⟨f1, f2⟩
      · exact Or.inl ⟨u, hu, e1.trans f1, e2.trans f2⟩
      · exact Or.inr ⟨pg, List.mem_cons_self pg pgs, e1.trans f1, e2.trans f2⟩
    · exact Or.inr ⟨p, List.mem_cons_of_mem pg hp, e1, e2⟩

/-- The loop `presentLoop` emits one extracted entry per chosen section. -/
theorem presentLoop_fst_length :
    ∀ (rank : Nat) (l : List (Section × ℚ)), (presentLoop rank l).1.length = l.length
  | _, [] => rfl
  | rank, (sec, sc) :: rest => by
    simp [presentLoop, presentLoop_fst_length (rank + 1) rest]

/-- The loop `presentLoop` emits one analysis entry per chosen section. -/
theorem presentLoop_snd_length :
    ∀ (rank : Nat) (l : List (Section × ℚ)), (presentLoop rank l).2.length = l.length
  | _, [] => rfl
  | rank, (sec, sc) :: rest => by
    simp [presentLoop, presentLoop_snd_length (rank + 1) rest]

/-- The importance ranks emitted by `presentLoop` are consecutive from the
starting rank. -/
theorem presentLoop_rank_map :
    ∀ (rank : Nat) (l : List (Section × ℚ)),
      (presentLoop rank l).1.map (fun e => e.importance_rank)
        = List.range' rank l.length
  | _, [] => rfl
  | rank, (sec, sc) :: rest => by
    simp [presentLoop, presentLoop_rank_map (rank + 1) rest, List.range'_succ]

/-- Both output lists of `presentLoop` carry, position by position, the
document and page number of the chosen section at that position. -/
theorem presentLoop_pairs :
    ∀ (rank : Nat) (l : List (Section × ℚ)),
      (presentLoop rank l).1.map (fun e => (e.document, e.page_number))
        = l.map (fun p => (p.1.document, p.1.page_number)) ∧
      (presentLoop rank l).2.map (fun d => (d.document, d.page_number))
        = l.map (fun p => (p.1.document, p.1.page_number))
  | _, [] => ⟨rfl, rfl⟩
  | rank, (sec, sc) :: rest => by
    have ih := presentLoop_pairs (rank + 1) rest
    simp [presentLoop, ih.1, ih.2]

/-- Positive word count forces a non-empty char list. -/
theorem length_pos_of_wordsOf_pos :
    ∀ l : List Char, 0 < (wordsOf l).length → 0 < l.length
  | [], h => by simp [wordsOf, splitChar] at h
  | _ :: _, _ => by simp

/-- The fallback path of `meaningful_title` always yields a non-empty string:
each branch is guarded by a positive word count, and the synthetic label is a
non-empty literal prefix. -/
theorem syntheticTitle_pos (s : Section) : 0 < (syntheticTitle s).data.length := by
  have hd : ∀ a b : String, (a ++ b).data = a.data ++ b.data := fun _ _ => rfl
  simp only [syntheticTitle, hd, List.length_append, List.length_cons,
    List.length_nil]
  omega

theorem meaningfulTitleFallback_pos (s : Section) :
    0 < (meaningfulTitleFallback s).data.length := by
  simp only [meaningfulTitleFallback]
  split
  · next h1 =>
    obtain ⟨hA, -⟩ := h1
    exact length_pos_of_wordsOf_pos _ (by omega)
  · next h1 =>
    split
    · next h2 => exact syntheticTitle_pos s
    · next h2 =>
      push_neg at h2
      obtain ⟨-, hwc, -⟩ := h2
      exact length_pos_of_wordsOf_pos _ (by omega)

/- ---------------------------------------------------------------------
   Claim theorems
--------------------------------------------------------------------- -/

/-- C1: the claimed invariant — no two entries of the selector's output share
the identifier `(document, page_number, hash(content))` — fails on the code.
On a two-element pool (a 0.9 `methods` section and a 0.8 `other_general`
section) with `max_count = 3`, Pass 1 picks the 0.9 section but records the
identifier of the *last scanned* pool element instead of the chosen one, so
Pass 2 re-adds the already-chosen 0.9 section: the output repeats one
identifier and is not duplicate-free. -/
theorem C1_selector_duplicate_identifier :
    (selectChosen c1pool "Researcher" 3).map (fun p => secId p.1)
      = [secId c1A, secId c1A] ∧
    ¬ ((selectChosen c1pool "Researcher" 3).map (fun p => secId p.1)).Nodup := by
  decide

/-- C2: the conjunct "`max_count` ≥ pool size ⇒ selection size equals pool
size with all entries unique" fails on the code.  On a three-element pool
(0.9 methods, 0.8 recommendations, 0.1 other_general) with `max_count = 10`,
the mis-recorded Pass-1 identifiers make Pass 2 re-add both Pass-1 picks and
skip the never-chosen third section: the selection has four entries, with
duplicates, for a pool of three. -/
theorem C2_overfull_selection :
    c2pool.length = 3 ∧
    (selectChosen c2pool "Researcher" 10).length = 4 ∧
    (selectChosen c2pool "Researcher" 10).map (fun p => secId p.1)
      = [secId c1A, secId c1A, secId c2B, secId c2B] := by
  decide

/-- C3 counterexample: sections can span pages.  Page 1 yields a 90-character
section; page 2's whole content ("tail bit", 8 characters, under the
80-character threshold) is then merged into that section, so the single
output section carries `page_number = 1` while its content contains text that
occurs only on page 2. -/
theorem C3_counterexample :
    split_into_sections [c3p1, c3p2] = [c3merged] ∧
    c3merged.page_number = 1 ∧
    isSubstr "tail bit".data c3merged.content.data = true ∧
    isSubstr "tail bit".data c3p1.content.data = false := by
  decide

/-- C4 counterexample: with the prior section's content at exactly 1000
characters the merge does NOT happen (the code merges only when the prior
content is strictly shorter than 1000): the short page-2 content is finalized
as a standalone second section instead of being appended. -/
theorem C4_no_merge_at_exactly_1000 :
    split_into_sections [c4p1, c4p2]
      = [{ title := "", content := a1000, page_number := 1, document := "d.pdf" },
         { title := "", content := "short tail", page_number := 2, document := "d.pdf" }] ∧
    a1000.data.length = 1000 := by
  have hdata : a1000.data = List.replicate 1000 'a' := rfl
  have hlen : a1000.data.length = 1000 := by simp [a1000, ofChars]
  refine ⟨?_, hlen⟩
  have e1 : splitNN c4p1.content.data = [a1000.data] := by
    show splitNN a1000.data = [a1000.data]
    rw [hdata]
    exact splitNN_replicate_a 1000
  have e2 : trimL a1000.data = a1000.data := by
    rw [hdata]
    exact trimL_replicate_a 1000
  have e3 : a1000.data ≠ [] := by
    intro h
    have h2 := congrArg List.length h
    rw [hlen] at h2
    simp at h2
  have hfl : firstLineOf (ofChars a1000.data) = a1000 := by
    rw [firstLineOf_of_no_newline (ofChars a1000.data)
      (List.all_eq_true.mpr fun x hx => by
        have hx3 : x ∈ List.replicate 1000 'a' := hx
        have hx2 : x = 'a' := List.eq_of_mem_replicate hx3
        subst hx2
        rfl)]
    show ofChars (trimL a1000.data) = a1000
    rw [e2]
    rfl
  have e4 : is_potential_title (ofChars a1000.data) = false := by
    refine is_potential_title_false_head _ 'a' (List.replicate 999 'a') ?_ rfl rfl
    rw [hfl, hdata]
    rfl
  have hpage1 : processPage [] c4p1 = endOfPage []
      { title := "", content_blocks := [ofChars a1000.data],
        page_number := c4p1.page_number, document := c4p1.document } :=
    processPage_single_block [] c4p1 a1000.data e1 e2 e3 e4
  have ej : pyTrim (joinSp [ofChars a1000.data]) = a1000 := by
    have hj : joinSp [ofChars a1000.data] = ofChars a1000.data := by
      simp [joinSp, List.intercalate, ofChars]
    rw [hj]
    show ofChars (trimL a1000.data) = a1000
    rw [e2]
    rfl
  have hstep : split_into_sections [c4p1, c4p2]
      = processPage (processPage [] c4p1) c4p2 := by
    simp only [split_into_sections, List.foldl_cons, List.foldl_nil]
  rw [hstep, hpage1]
  have hk := endOfPage_keep []
    { title := "", content_blocks := [ofChars a1000.data],
      page_number := c4p1.page_number, document := c4p1.document }
    (by rw [ej, hlen]; omega)
  rw [hk]
  simp only [List.nil_append]
  set sec1 : Section :=
    { title := ""
      content := pyTrim (joinSp [ofChars a1000.data])
      page_number := c4p1.page_number
      document := c4p1.document } with hsec1
  have e5 : splitNN c4p2.content.data = ["short tail".data] := by decide
  have e6 : trimL "short tail".data = "short tail".data := by decide
  have e7 : "short tail".data ≠ [] := by decide
  have e8 : is_potential_title (ofChars "short tail".data) = false := by decide
  rw [processPage_single_block [sec1] c4p2 "short tail".data e5 e6 e7 e8]
  have hs := endOfPage_standalone [sec1]
    { title := "", content_blocks := [ofChars "short tail".data],
      page_number := c4p2.page_number, document := c4p2.document }
    sec1 (by decide) (by decide) (by rfl)
    (by rw [hsec1]
        show 1000 ≤ (pyTrim (joinSp [ofChars a1000.data])).data.length
        rw [ej, hlen])
  rw [hs, hsec1, ej]
  have e9 : pyTrim (joinSp [ofChars "short tail".data]) = "short tail" := by decide
  rw [e9]
  rfl

/-- C5 counterexample: a section whose stripped content is exactly 150
characters does NOT survive the filter (the code keeps only sections strictly
longer than 150 characters). -/
theorem C5_exact_150_filtered_out :
    (pyTrim s150.content).data.length = 150 ∧ filteredSections [s150] = [] := by
  decide

/-- C8 counterexample: on the pool [0.9 methods, 0.8 other_general,
0.7 methods] with `max_count = 2`, the 0.8 `other_general` section is NOT
added by Pass 2 backfill: `other_general` is itself a Pass-1 priority theme
(the last one), so Pass 1 already selects both sections and Pass 2 leaves the
state unchanged. -/
theorem C8_counterexample :
    (pass1 c8pool "Researcher" 2).1 = [(c1A, r09), (c1B, r08)] ∧
    pass2 c8pool 2 (pass1 c8pool "Researcher" 2) = pass1 c8pool "Researcher" 2 := by
  decide

/-- C8 amended: Pass 1 picks the 0.9 methods section first (methods is the
first priority theme; it beats the 0.7 methods section on score) and then
also the 0.8 other_general section under the `other_general` theme (last in
priority order); Pass 2 adds nothing; the final output order is
[0.9 section, 0.8 section]. -/
theorem C8_amended_selection :
    classify "Researcher" c1A = "methods_procedures_steps" ∧
    classify "Researcher" c8C = "methods_procedures_steps" ∧
    classify "Researcher" c1B = "other_general" ∧
    (pass1 c8pool "Researcher" 2).1 = [(c1A, r09), (c1B, r08)] ∧
    selectChosen c8pool "Researcher" 2 = [(c1A, r09), (c1B, r08)] := by
  decide

/-- C3 amended: every section emitted by `split_into_sections` carries the
page number and document of one of the input pages (the page on which it was
started); its content, however, may absorb a later page's short trailing
content, so content alone can span more than one page. -/
theorem C3_amended_page_provenance :
    ∀ (pages : List PageRecord) (s : Section),
      s ∈ split_into_sections pages →
      ∃ p ∈ pages, s.page_number = p.page_number ∧ s.document = p.document := by
  intro pages s hs
  rcases split_foldl_mem pages [] s hs with ⟨t, ht, -, -⟩ | h
  · simp at ht
  · exact h

/-- Witness for C3 amended: the merged two-page output section carries the
page number and document of page 1. -/
theorem C3_amended_witness :
    ∃ p ∈ [c3p1, c3p2],
      c3merged.page_number = p.page_number ∧ c3merged.document = p.document :=
  C3_amended_page_provenance [c3p1, c3p2] c3merged (by decide)

/-- C4 amended: at end of page, non-empty accumulated content shorter than 80
characters is appended (with a blank-line separator) to the previously
finalized section iff that section's content is strictly shorter than 1000
characters; at 1000 characters or more — in particular at exactly 1000 — the
short content is finalized as a standalone section instead. -/
theorem C4_amended_merge_rule :
    ∀ (sections : List Section) (cur : CurrentSection) (last : Section),
      ¬ (pyTrim (joinSp cur.content_blocks)).data.length = 0 →
      (pyTrim (joinSp cur.content_blocks)).data.length < 80 →
      sections.getLast? = some last →
      (last.content.data.length < 1000 →
        endOfPage sections cur =
          sections.dropLast ++
            [{ last with
                content := last.content ++ "\n\n" ++ pyTrim (joinSp cur.content_blocks) }]) ∧
      (1000 ≤ last.content.data.length →
        endOfPage sections cur =
          sections ++
            [{ title := cur.title
               content := pyTrim (joinSp cur.content_blocks)
               page_number := cur.page_number
               document := cur.document }]) :=
  fun sections cur last h0 h1 hlast =>
    ⟨fun hsmall => endOfPage_merge sections cur last h0 h1 hlast hsmall,
     fun hbig => endOfPage_standalone sections cur last h0 h1 hlast (by omega)⟩

/-- Witness for C4 amended: a short trailing fragment is merged into a prior
section whose content is under 1000 characters. -/
theorem C4_amended_witness :
    endOfPage [c4w] c4wcur = [{ c4w with content := c4w.content ++ "\n\n" ++ "tail" }] := by
  have h := (C4_amended_merge_rule [c4w] c4wcur c4w (by decide) (by decide)
    (by rfl)).1 (by decide)
  rw [h]
  decide

/-- C5 amended: the candidate filter of `rank_sections` keeps a section iff
its stripped content is strictly longer than 150 characters (one of exactly
150 characters is dropped), and when nothing survives the filter the function
returns empty `extracted_sections` and `subsection_analysis` lists rather
than failing. -/
theorem C5_amended_filter :
    ∀ (sections : List Section) (persona job : String)
      (search : String → Nat → List (Section × ℚ)) (maxN : Nat),
      (∀ s : Section, s ∈ filteredSections sections ↔
        s ∈ sections ∧ 150 < (pyTrim s.content).data.length) ∧
      (filteredSections sections = [] →
        rank_sections sections persona job search maxN = ([], [])) := by
  intro sections persona job search maxN
  constructor
  · intro s
    simp [filteredSections, List.mem_filter]
  · intro h
    simp [rank_sections, h]

/-- Witness for C5 amended: the exactly-150-character section satisfies the
filter characterization, and its pool yields the empty, non-fatal result. -/
theorem C5_amended_witness :
    (s150 ∈ filteredSections [s150] ↔
      s150 ∈ [s150] ∧ 150 < (pyTrim s150.content).data.length) ∧
    rank_sections [s150] "p" "j" (fun _ _ => []) 10 = ([], []) :=
  ⟨(C5_amended_filter [s150] "p" "j" (fun _ _ => []) 10).1 s150,
   (C5_amended_filter [s150] "p" "j" (fun _ _ => []) 10).2 (by decide)⟩

/-- C6: on a qualifying heading candidate, `split_into_sections` finalizes the
accumulating section and starts a new one titled with the candidate line and
seeded with the full block iff the accumulated content, joined with single
spaces, is at least 200 characters long. -/
theorem C6_new_section_threshold :
    ∀ (sections : List Section) (cur : CurrentSection) (pn : Int) (doc : String)
      (block : String),
      is_potential_title block = true →
      (((processBlock pn doc (sections, cur) block).1
          = sections ++ [finalizeSection cur] ∧
        (processBlock pn doc (sections, cur) block).2 =
          { title := firstLineOf block
            content_blocks := [block]
            page_number := pn
            document := doc }) ↔
        200 ≤ (pyTrim (joinSp cur.content_blocks)).data.length) := by
  intro sections cur pn doc block h
  simp only [processBlock, h, if_true]
  by_cases h2 : 200 ≤ (pyTrim (joinSp cur.content_blocks)).data.length
  · rw [if_pos h2]
    exact ⟨fun _ => h2, fun _ => ⟨rfl, rfl⟩⟩
  · rw [if_neg h2]
    constructor
    · intro hc
      exfalso
      by_cases h3 : cur.title = "" ∧ cur.content_blocks = []
      · rw [if_pos h3] at hc
        have hlen := congrArg List.length hc.1
        simp at hlen
      · rw [if_neg h3] at hc
        have hlen := congrArg List.length hc.1
        simp at hlen
    · intro hc
      exact absurd hc h2

/-- Witness for C6: with exactly 200 accumulated characters the heading
candidate "Overview of topics" starts a new section; with 199 it does not. -/
theorem C6_witness :
    (processBlock 1 "d.pdf" ([], cur200) "Overview of topics").1
        = [] ++ [finalizeSection cur200] ∧
    ¬ ((processBlock 1 "d.pdf" ([], cur199) "Overview of topics").1
          = [] ++ [finalizeSection cur199] ∧
        (processBlock 1 "d.pdf" ([], cur199) "Overview of topics").2
          = { title := firstLineOf "Overview of topics"
              content_blocks := ["Overview of topics"]
              page_number := 1
              document := "d.pdf" }) := by
  constructor
  · exact ((C6_new_section_threshold [] cur200 1 "d.pdf" "Overview of topics"
      (by decide)).mpr (by decide)).1
  · intro hcontra
    have h199 := (C6_new_section_threshold [] cur199 1 "d.pdf" "Overview of topics"
      (by decide)).mp hcontra
    exact absurd h199 (by decide)

/-- C7: the selector's final list is sorted purely by descending score;
`extracted_sections` carries importance ranks 1, 2, ... in list order; and
`subsection_analysis` has the same length with entry i referring to the same
document and page number as `extracted_sections` entry i. -/
theorem C7_final_ordering :
    ∀ (results : List (Section × ℚ)) (persona : String) (maxN : Nat),
      List.Sorted scoreGe (selectChosen results persona maxN) ∧
      (presentLoop 1 (selectChosen results persona maxN)).1.map
          (fun e => e.importance_rank)
        = List.range' 1 (presentLoop 1 (selectChosen results persona maxN)).1.length ∧
      (presentLoop 1 (selectChosen results persona maxN)).1.length
        = (presentLoop 1 (selectChosen results persona maxN)).2.length ∧
      (presentLoop 1 (selectChosen results persona maxN)).1.map
          (fun e => (e.document, e.page_number))
        = (presentLoop 1 (selectChosen results persona maxN)).2.map
            (fun d => (d.document, d.page_number)) := by
  intro results persona maxN
  refine ⟨?_, ?_, ?_, ?_⟩
  · simp only [selectChosen, sortByScoreDesc]
    exact List.sorted_insertionSort scoreGe _
  · rw [presentLoop_rank_map, presentLoop_fst_length]
  · rw [presentLoop_fst_length, presentLoop_snd_length]
  · rw [(presentLoop_pairs 1 _).1, (presentLoop_pairs 1 _).2]

/-- C9: `meaningful_title` returns the section's (stripped) own title exactly
when the title-field check passes — word count strictly between 5 and 25, the
Title-Case/ALL-CAPS pattern, no terminal sentence punctuation — and otherwise
falls through to the content-based / synthetic fallback; in particular the
one-word title "INTRODUCTION" is rejected and (with empty content) yields the
synthetic fallback label. -/
theorem C9_title_field_rule :
    (∀ s : Section, specTitleFieldOk s = true → meaningful_title s = pyTrim s.title) ∧
    (∀ s : Section, specTitleFieldOk s = false →
      meaningful_title s = meaningfulTitleFallback s) ∧
    specTitleFieldOk introSec = false ∧
    meaningful_title introSec = "Information from Page 3 of intro" := by
  refine ⟨?_, ?_, by decide, by decide⟩
  · intro s h
    simp only [specTitleFieldOk, Bool.and_eq_true, decide_eq_true_eq,
      Bool.not_eq_true'] at h
    simp only [meaningful_title]
    rw [if_pos ⟨h.1.1.1, h.1.1.2, h.1.2, h.2⟩]
  · intro s h
    have hneg : ¬ (5 < (wordsOf (pyTrim s.title).data).length ∧
        (wordsOf (pyTrim s.title).data).length < 25 ∧
        titleRegexOk (pyTrim s.title) = true ∧
        endsPunctL (pyTrim s.title).data = false) := by
      intro hc
      obtain ⟨hA, hB, hC, hD⟩ := hc
      have htrue : specTitleFieldOk s = true := by
        simp [specTitleFieldOk, hA, hB, hC, hD]
      rw [htrue] at h
      exact Bool.noConfusion h
    simp only [meaningful_title]
    rw [if_neg hneg]

/-- Witness for C9: a clean six-word sentence-case title is returned as-is,
and the rejected "INTRODUCTION" section takes the fallback path. -/
theorem C9_witness :
    meaningful_title goodSec = "Detailed planning steps for annual review" ∧
    meaningful_title introSec = meaningfulTitleFallback introSec := by
  constructor
  · have h := C9_title_field_rule.1 goodSec (by decide)
    rw [h]
    decide
  · exact C9_title_field_rule.2.1 introSec (by decide)

/-- C10: for every section record (string title and content, document and
page number present), `meaningful_title` returns a non-empty string — every
branch is guarded by a positive word count, and the final synthetic label
"Information from Page ... of ..." is never empty. -/
theorem C10_meaningful_title_nonempty :
    ∀ s : Section, 0 < (meaningful_title s).data.length := by
  intro s
  simp only [meaningful_title]
  split
  · next h =>
    obtain ⟨h1, -⟩ := h
    exact length_pos_of_wordsOf_pos _ (by omega)
  · next h => exact meaningfulTitleFallback_pos s

end Spec2
